import Mathlib

set_option autoImplicit false

namespace Bench

/-!
Shallow embedding of the normalization-and-dual-write pipeline of the
crypto-data Postgres/Mongo benchmark repository: the field parsers of
`src/db/data_precleaner.py` and `src/etl/load_tweets.py`, the batch
cleaning pass `clean_csv_data` of `src/main.py`, the relational sink of
`src/db/postgres_manager.py`, the document builder of `src/main.py` /
`src/db/mongo_manager.py`, and the batch coordinator loop of
`src/main.py::run`.

Python strings are modelled as Lean `String` restricted to the ASCII
fragment; `str.strip` / `str.lower` / `str.lstrip` are modelled
character-wise below.  Missing values (`None` / `NaN` cells) are
modelled with `Option`.
-/

/-- The whitespace characters removed by Python `str.strip()` (ASCII fragment). -/
def isPySpace (c : Char) : Bool :=
  c == ' ' || c == '\t' || c == '\n' || c == '\r'

/-- Python `str.strip()` on a character list: drop whitespace from both ends. -/
def pyStripChars (cs : List Char) : List Char :=
  ((cs.dropWhile isPySpace).reverse.dropWhile isPySpace).reverse

/-- Python `s.strip()`. -/
def pyStrip (s : String) : String := ⟨pyStripChars s.data⟩

/-- Python `s.lower()` (ASCII fragment). -/
def pyLower (s : String) : String := ⟨s.data.map Char.toLower⟩

/-- Python `s.lstrip("#")`: remove every leading `#` character. -/
def pyLStripHash (s : String) : String := ⟨s.data.dropWhile (fun c => c == '#')⟩

/-- A raw Python cell value as it appears in a pandas column. -/
inductive PyVal where
  | none
  | nan
  | bool (b : Bool)
  | str (s : String)
  | int (n : Int)
  deriving DecidableEq, Repr

/-- `pd.isna` on a scalar cell: true exactly for `None` and `NaN`. -/
def pd_isna : PyVal → Bool
  | .none => true
  | .nan => true
  | _ => false

/-- Python `str(value)` on the modelled cell values. -/
def pyStr : PyVal → String
  | .none => "None"
  | .nan => "nan"
  | .bool true => "True"
  | .bool false => "False"
  | .str s => s
  | .int n => toString n

/-- The truthy spellings accepted by both boolean parsers. -/
def truthyStrings : List String := ["true", "1", "yes", "y", "t"]

/-- `DataPrecleaner.__to_bool` (src/db/data_precleaner.py lines 124-128):
`NaN` maps to `False`, otherwise `str(value).strip().lower()` is tested
for membership in `('true', '1', 'yes', 'y', 't')`. -/
def DataPrecleaner.to_bool (value : PyVal) : Bool :=
  if pd_isna value then false
  else truthyStrings.contains (pyLower (pyStrip (pyStr value)))

/-- `load_tweets._parse_bool` (src/etl/load_tweets.py lines 16-46):
`NaN` maps to `None`; a `bool` is returned as-is; otherwise
`str(x).strip().lower()` is tested against the same truthy set. -/
def load_tweets.parse_bool (x : PyVal) : Option Bool :=
  if pd_isna x then Option.none
  else
    match x with
    | .bool b => some b
    | _ => some (truthyStrings.contains (pyLower (pyStrip (pyStr x))))

/-- The per-tag cleanup `str(tag).strip().lstrip("#").lower()` that appears in
`DataPrecleaner.__parse_hashtags`, `main.build_mongo_doc`, `main.run` and
`MongoManager._build_document`. -/
def clean_tag (t : String) : String := pyLower (pyLStripHash (pyStrip t))

/-- The list comprehension
`[str(tag).strip().lstrip("#").lower() for tag in tags if str(tag).strip()]`
shared by `DataPrecleaner.__parse_hashtags` (literal-list branch),
`main.build_mongo_doc` and `MongoManager._build_document`. -/
def clean_tag_list : List String → List String
  | [] => []
  | t :: ts =>
      if pyStrip t = "" then clean_tag_list ts
      else clean_tag t :: clean_tag_list ts

/-- The literal-list branch of `DataPrecleaner.__parse_hashtags`
(src/db/data_precleaner.py lines 133-136), applied to the list of tag
strings produced by `ast.literal_eval`. -/
def DataPrecleaner.parse_hashtags_list (tags : List String) : List String :=
  clean_tag_list tags

/-- The literal-list branch of `load_tweets._parse_list`
(src/etl/load_tweets.py line 85):
`[str(t).strip().lstrip('#') for t in lst if str(t).strip()]` — note that,
unlike the precleaner, it does not lowercase. -/
def load_tweets.parse_list_literal : List String → List String
  | [] => []
  | t :: ts =>
      if pyStrip t = "" then load_tweets.parse_list_literal ts
      else pyLStripHash (pyStrip t) :: load_tweets.parse_list_literal ts

/-- The already-a-list branch of `load_tweets._parse_list`
(src/etl/load_tweets.py lines 75-76): the list is returned unchanged,
with no per-tag cleanup. -/
def load_tweets.parse_list_of_list (xs : List String) : List String := xs

/-- A raw cell of a numeric column: missing, an actual number (already
truncated to integer, as `astype(int)` / `int(float(.))` do), or an
unparseable string. -/
inductive RawNum where
  | null
  | num (n : Int)
  | bad (s : String)
  deriving DecidableEq, Repr

/-- `pd.to_numeric(col, errors="coerce")` on one cell: numbers pass through,
missing and unparseable cells become `NaN` (here `Option.none`). -/
def to_numeric_coerce : RawNum → Option Int
  | .null => Option.none
  | .num n => some n
  | .bad _ => Option.none

/-- The numeric step of `DataPrecleaner.clean_data`
(src/db/data_precleaner.py lines 82-83):
`pd.to_numeric(df[col], errors="coerce").fillna(0).astype(int)`.
There is no clamping of negative values in this step. -/
def DataPrecleaner.numeric_step (v : RawNum) : Int :=
  (to_numeric_coerce v).getD 0

/-- The numeric step of `main.clean_csv_data` (src/main.py lines 117-124):
`clip(lower=0)` followed by `fillna(0)`.  There is no parsing or
truncation in this step. -/
def clean_csv_numeric (v : Option Int) : Int :=
  ((v.map (fun n => max n 0)).getD 0)

/-- Modelled from the spec: `parseTimestamp` (spec §4.1), realised in the
repository by the external tolerant datetime parser
(`pd.to_datetime(errors="coerce")`), which is library code, not repository
code.  Stand-in: a string parses iff, after stripping, it is non-empty and
consists only of digits and the common date separators; anything containing
a letter (which the tolerant parser also rejects, e.g. `"not-a-date"`)
is unparseable and maps to `Option.none`. -/
def parse_timestamp (s : String) : Option String :=
  let t := pyStrip s
  if t = "" then Option.none
  else if t.data.all (fun c => c.isDigit || c == '-' || c == ':' || c == ' ' || c == '.' || c == '/')
  then some t
  else Option.none

/-- One row of the CSV DataFrame handed to `clean_csv_data`, with the 13
expected columns; a missing cell (`NaN`) is `Option.none`.  Numeric cells
are modelled at integer precision. -/
structure RawRow where
  user_name : Option String
  user_location : Option String
  user_description : Option String
  user_created : Option String
  user_followers : Option Int
  user_friends : Option Int
  user_favourites : Option Int
  user_verified : Option Bool
  date : Option String
  text : Option String
  hashtags : Option String
  source : Option String
  is_retweet : Option Bool
  deriving DecidableEq, Repr

/-- Helper for pandas `df.drop_duplicates()` (keep the first occurrence of
each fully equal row). -/
def dropDupAux (seen : List RawRow) : List RawRow → List RawRow
  | [] => []
  | r :: rs => if r ∈ seen then dropDupAux seen rs else r :: dropDupAux (r :: seen) rs

/-- pandas `df.drop_duplicates()`: remove exact-duplicate rows, keeping
first occurrences, preserving order. -/
def drop_duplicates (df : List RawRow) : List RawRow := dropDupAux [] df

/-- The step-2 predicate of `clean_csv_data` (src/main.py line 96):
`df_cleaned[col].fillna('').str.strip() != ''`. -/
def fillnaStripNonempty (o : Option String) : Bool :=
  !(pyStrip (o.getD "") == "")

/-- `main.clean_csv_data` (src/main.py lines 80-144), step by step on the
list-of-rows view of the DataFrame:
1. `drop_duplicates()`;
2. for each of `user_name`, `user_location`, `user_description`, `text`:
   keep rows whose value, `fillna('')` then stripped, is non-empty;
3. `dropna(subset=['user_name'])` and keep stripped `user_name` non-empty;
4. `dropna(subset=['date'])` — note: no date parsing happens here;
5. `dropna(subset=['text'])` and keep stripped `text` non-empty;
6. `hashtags.fillna('[]')`;
7. numeric columns: `clip(lower=0)` then `fillna(0)`;
8. boolean columns: `fillna(False)`;
9. `source.fillna('Unknown')`. -/
def clean_csv_data (df : List RawRow) : List RawRow :=
  let d1 := drop_duplicates df
  let d2 := d1.filter (fun r => fillnaStripNonempty r.user_name)
  let d3 := d2.filter (fun r => fillnaStripNonempty r.user_location)
  let d4 := d3.filter (fun r => fillnaStripNonempty r.user_description)
  let d5 := d4.filter (fun r => fillnaStripNonempty r.text)
  let d6 := d5.filter (fun r => r.user_name.isSome)
  let d7 := d6.filter (fun r => !(pyStrip (r.user_name.getD "") == ""))
  let d8 := d7.filter (fun r => r.date.isSome)
  let d9 := d8.filter (fun r => r.text.isSome)
  let d10 := d9.filter (fun r => !(pyStrip (r.text.getD "") == ""))
  let d11 := d10.map (fun r => { r with hashtags := some (r.hashtags.getD "[]") })
  let d12 := d11.map (fun r =>
    { r with
      user_followers := some (clean_csv_numeric r.user_followers),
      user_friends := some (clean_csv_numeric r.user_friends),
      user_favourites := some (clean_csv_numeric r.user_favourites) })
  let d13 := d12.map (fun r =>
    { r with
      user_verified := some (r.user_verified.getD false),
      is_retweet := some (r.is_retweet.getD false) })
  d13.map (fun r => { r with source := some (r.source.getD "Unknown") })

/-- The `user_name` duplicate check of `main.validate_data_quality`
(src/main.py lines 155-159): `df['user_name'].duplicated().any()`, i.e.
true iff some `user_name` value occurs more than once. -/
def user_name_duplicated (df : List RawRow) : Bool :=
  !((df.map (fun r => r.user_name)).dedup.length == df.length)

/-! ## Relational sink (src/db/postgres_manager.py) -/

/-- A row of the `users` table (natural key `user_name`, declared
`TEXT UNIQUE` in the DDL). -/
structure PgUserRow where
  user_name : String
  user_location : Option String
  user_description : Option String
  user_created : Option String
  user_followers : Option Int
  user_friends : Option Int
  user_favourites : Option Int
  user_verified : Option Bool
  deriving DecidableEq, Repr

/-- A row of the `tweets` table. -/
structure PgTweetRow where
  user_id : Nat
  date : Option String
  text : Option String
  source_id : Option Nat
  is_retweet : Option Bool
  deriving DecidableEq, Repr

/-- A cleaned record as fed to the sinks by `main.run` (a dict produced by
`df_cleaned.iterrows()`; `upsert_user` accesses `row["user_name"]`
directly, so `user_name` is modelled as present). -/
structure Row where
  user_name : String
  user_location : Option String
  user_description : Option String
  user_created : Option String
  user_followers : Option Int
  user_friends : Option Int
  user_favourites : Option Int
  user_verified : Option Bool
  date : Option String
  text : Option String
  hashtags : List String
  source : Option String
  is_retweet : Option Bool
  deriving DecidableEq, Repr

/-- The five tables of the relational schema (src/db/postgres_manager.py
DDL), each row carried with its surrogate id, plus the serial counters. -/
structure PgState where
  users : List (Nat × PgUserRow)
  sources : List (Nat × String)
  tweets : List (Nat × PgTweetRow)
  tags : List (Nat × String)
  links : List (Nat × Nat)
  next_user_id : Nat
  next_source_id : Nat
  next_tweet_id : Nat
  next_hashtag_id : Nat
  deriving DecidableEq, Repr

/-- The empty database after `init_schema`. -/
def PgState.empty : PgState := ⟨[], [], [], [], [], 1, 1, 1, 1⟩

/-- The SQL statements issued by `PostgresManager`. -/
inductive PgStmt where
  | insert_user_stmt
  | select_source
  | insert_source_stmt
  | insert_tweet_stmt
  | select_hashtag
  | insert_hashtag_stmt
  | insert_link
  deriving DecidableEq, Repr

/-- An observable event on the relational connection: a statement
execution or a `conn.commit()`. -/
inductive PgEvent where
  | exec (s : PgStmt)
  | commit
  deriving DecidableEq, Repr

/-- The tuple of non-key attributes passed by `upsert_user`
(src/db/postgres_manager.py lines 111-120). -/
def rowToUser (r : Row) : PgUserRow :=
  ⟨r.user_name, r.user_location, r.user_description, r.user_created,
   r.user_followers, r.user_friends, r.user_favourites, r.user_verified⟩

/-- `PostgresManager.upsert_user` (src/db/postgres_manager.py lines
109-123) together with the semantics of `INSERT_USER`
(`ON CONFLICT (user_name) DO UPDATE ... RETURNING id`): if a row with the
natural key exists, all non-key attributes are overwritten and the
existing id returned; otherwise a fresh row is inserted.  Note the
`self.conn.commit()` on line 122: the function itself commits, which the
event trace records. -/
def upsert_user (s : PgState) (r : Row) : PgState × Nat × List PgEvent :=
  match s.users.find? (fun p => p.2.user_name == r.user_name) with
  | some p =>
      ({ s with
          users := s.users.map
            (fun q => if q.2.user_name == r.user_name then (q.1, rowToUser r) else q) },
       p.1, [PgEvent.exec PgStmt.insert_user_stmt, PgEvent.commit])
  | Option.none =>
      ({ s with
          users := s.users ++ [(s.next_user_id, rowToUser r)],
          next_user_id := s.next_user_id + 1 },
       s.next_user_id, [PgEvent.exec PgStmt.insert_user_stmt, PgEvent.commit])

/-- `PostgresManager.get_or_create_source` (src/db/postgres_manager.py
lines 125-138): a falsy name (`None` or `""`) is skipped entirely and no
source reference stored; otherwise look up by name, and insert with
`ON CONFLICT (name) DO NOTHING RETURNING id` when absent (single-writer
semantics: the insert of an absent key always returns the fresh id, and
no commit is issued here). -/
def get_or_create_source (s : PgState) (name : Option String) :
    PgState × Option Nat × List PgEvent :=
  match name with
  | Option.none => (s, Option.none, [])
  | some nm =>
      if nm = "" then (s, Option.none, [])
      else
        match s.sources.find? (fun p => p.2 == nm) with
        | some p => (s, some p.1, [PgEvent.exec PgStmt.select_source])
        | Option.none =>
            ({ s with
                sources := s.sources ++ [(s.next_source_id, nm)],
                next_source_id := s.next_source_id + 1 },
             some s.next_source_id,
             [PgEvent.exec PgStmt.select_source, PgEvent.exec PgStmt.insert_source_stmt])

/-- `PostgresManager.insert_tweet` (src/db/postgres_manager.py lines
140-150): always inserts a new `tweets` row referencing the resolved user
and source ids, returning the fresh id; no commit. -/
def insert_tweet (s : PgState) (uid : Nat) (r : Row) (sid : Option Nat) :
    PgState × Nat × List PgEvent :=
  ({ s with
      tweets := s.tweets ++ [(s.next_tweet_id, ⟨uid, r.date, r.text, sid, r.is_retweet⟩)],
      next_tweet_id := s.next_tweet_id + 1 },
   s.next_tweet_id, [PgEvent.exec PgStmt.insert_tweet_stmt])

/-- `PostgresManager.get_or_create_hashtag` (src/db/postgres_manager.py
lines 152-163): same resolve-or-create pattern as sources, on the `tag`
natural key, with no falsy guard (callers filter empty tags) and no
commit. -/
def get_or_create_hashtag (s : PgState) (tag : String) :
    PgState × Nat × List PgEvent :=
  match s.tags.find? (fun p => p.2 == tag) with
  | some p => (s, p.1, [PgEvent.exec PgStmt.select_hashtag])
  | Option.none =>
      ({ s with
          tags := s.tags ++ [(s.next_hashtag_id, tag)],
          next_hashtag_id := s.next_hashtag_id + 1 },
       s.next_hashtag_id,
       [PgEvent.exec PgStmt.select_hashtag, PgEvent.exec PgStmt.insert_hashtag_stmt])

/-- `PostgresManager.link_tweet_hashtag` (src/db/postgres_manager.py lines
165-167) with the semantics of `INSERT ... ON CONFLICT DO NOTHING` against
the composite primary key `(tweet_id, hashtag_id)`: an existing link is a
silent no-op, a new link is appended. -/
def link_tweet_hashtag (s : PgState) (tid hid : Nat) : PgState × List PgEvent :=
  (if (tid, hid) ∈ s.links then s
   else { s with links := s.links ++ [(tid, hid)] },
   [PgEvent.exec PgStmt.insert_link])

/-- The hashtag loop of `main.run` (src/main.py lines 335-340): each tag is
cleaned with `strip().lstrip("#").lower()`, empty results are skipped, the
rest are resolved-or-created and linked to the tweet. -/
def process_tags (s : PgState) (tid : Nat) : List String → PgState × List PgEvent
  | [] => (s, [])
  | tag :: rest =>
      let t := clean_tag tag
      if t = "" then process_tags s tid rest
      else
        let u1 := get_or_create_hashtag s t
        let u2 := link_tweet_hashtag u1.1 tid u1.2.1
        let u3 := process_tags u2.1 tid rest
        (u3.1, u1.2.2 ++ u2.2 ++ u3.2)

/-- The per-record relational write sequence of `main.run`
(src/main.py lines 330-340): user upsert, source resolve, tweet insert,
hashtag links, in that order. -/
def process_record (s : PgState) (r : Row) : PgState × List PgEvent :=
  let u1 := upsert_user s r
  let u2 := get_or_create_source u1.1 r.source
  let u3 := insert_tweet u2.1 u1.2.1 r u2.2.1
  let u4 := process_tags u3.1 u3.2.1 r.hashtags
  (u4.1, u1.2.2 ++ u2.2.2 ++ u3.2.2 ++ u4.2)

/-- The relational sink run over a whole batch, record by record (the
relational half of the loop in `main.run`), accumulating the event trace.
Coordinator-issued flush commits are modelled separately. -/
def run_relational (s : PgState) : List Row → PgState × List PgEvent
  | [] => (s, [])
  | r :: rs =>
      let u1 := process_record s r
      let u2 := run_relational u1.1 rs
      (u2.1, u1.2 ++ u2.2)

/-- Number of `conn.commit()` events in a trace. -/
def commit_count (es : List PgEvent) : Nat :=
  es.countP (fun e => e == PgEvent.commit)

/-- The natural keys of the `users` table, in row order. -/
def user_names (s : PgState) : List String := s.users.map (fun p => p.2.user_name)

/-- The natural keys of the `sources` table, in row order. -/
def source_names (s : PgState) : List String := s.sources.map (fun p => p.2)

/-- The truthiness test Python applies to `row.get("source")`
(`if not name` in `get_or_create_source`, `or None` in the document
builders). -/
def truthy (o : Option String) : Bool :=
  match o with
  | Option.none => false
  | some s => !(s == "")

/-! ## Batch coordinator (src/main.py::run, lines 325-359) -/

/-- The accumulate-and-flush loop of `main.run`: `mongo_ops` grows by one
`InsertOne` per record, `total` counts records, and whenever
`total % BATCH_SIZE == 0` the accumulated operations are flushed (and
Postgres committed); after the loop a final flush happens iff operations
remain.  The value returned is the list of flush sizes, in order. -/
def coord_flush_sizes {α : Type} (N : Nat) : Nat → Nat → List α → List Nat
  | pending, _, [] => if pending = 0 then [] else [pending]
  | pending, total, _ :: rs =>
      if (total + 1) % N == 0 then
        (pending + 1) :: coord_flush_sizes N 0 (total + 1) rs
      else
        coord_flush_sizes N (pending + 1) (total + 1) rs

/-- The flush sizes produced by `main.run` for a record stream, starting
from an empty operation buffer. -/
def flush_sizes {α : Type} (N : Nat) (records : List α) : List Nat :=
  coord_flush_sizes N 0 0 records

/-! ## Document sink (src/main.py::build_mongo_doc,
src/db/mongo_manager.py::_build_document) -/

/-- The embedded `user` sub-object of a Mongo document. -/
structure MongoUser where
  user_name : String
  user_location : Option String
  user_description : Option String
  user_created : Option String
  user_followers : Option Int
  user_friends : Option Int
  user_favourites : Option Int
  user_verified : Bool
  deriving DecidableEq, Repr

/-- One denormalized document of the `tweets` collection. -/
structure MongoDoc where
  user : MongoUser
  date : Option String
  text : Option String
  hashtags : List String
  source : Option String
  is_retweet : Bool
  deriving DecidableEq, Repr

/-- Python `row.get("source") or None`: a falsy value (`None` or `""`)
becomes `None`, anything else passes through. -/
def py_or_none (o : Option String) : Option String :=
  match o with
  | Option.none => Option.none
  | some s => if s = "" then Option.none else some s

/-- `main.build_mongo_doc` (src/main.py lines 14-35): hashtags are
`row.get("hashtags") or []` followed by the shared per-tag cleanup
comprehension; the user sub-object is embedded by value;
`source` is `row.get("source") or None`; the booleans default to false
when absent. -/
def build_mongo_doc (row : Row) : MongoDoc :=
  { user :=
      ⟨row.user_name, row.user_location, row.user_description, row.user_created,
       row.user_followers, row.user_friends, row.user_favourites,
       row.user_verified.getD false⟩,
    date := row.date,
    text := row.text,
    hashtags := clean_tag_list row.hashtags,
    source := py_or_none row.source,
    is_retweet := row.is_retweet.getD false }

/-- `MongoManager._build_document` (src/db/mongo_manager.py lines 43-70)
on an already-list `hashtags` cell (the `ast.literal_eval` branch applies
only to string cells): identical field-by-field to `build_mongo_doc`. -/
def mongo_build_document (row : Row) : MongoDoc :=
  { user :=
      ⟨row.user_name, row.user_location, row.user_description, row.user_created,
       row.user_followers, row.user_friends, row.user_favourites,
       row.user_verified.getD false⟩,
    date := row.date,
    text := row.text,
    hashtags := clean_tag_list row.hashtags,
    source := py_or_none row.source,
    is_retweet := row.is_retweet.getD false }

/-- Insert a key into a key list unless already present (the effect of one
resolve-or-create / upsert call on a natural-key column). -/
def insertOnce (l : List String) (k : String) : List String :=
  if k ∈ l then l else l ++ [k]

/-- `insertOnce` lifted to an optional key (a falsy key inserts nothing). -/
def insertOpt (l : List String) (o : Option String) : List String :=
  match o with
  | Option.none => l
  | some k => insertOnce l k

/-- Fold `insertOpt` over a batch along a key projection. -/
def insertKeys (l : List String) (f : Row → Option String) (rs : List Row) : List String :=
  rs.foldl (fun acc r => insertOpt acc (f r)) l

/-! ## Concrete sample data used by witnesses and counterexamples -/

/-- A well-formed raw CSV row. -/
def sampleRaw : RawRow :=
  ⟨some "alice", some "loc", some "desc", some "2020-01-01", some 5, some 3,
   some 7, some true, some "2021-01-01", some "hello", some "[]", some "web", some false⟩

/-- A raw row whose `date` cell is present but not parseable as a date. -/
def badDateRow : RawRow := { sampleRaw with date := some "not-a-date" }

/-- Two distinct raw rows sharing the same `user_name`. -/
def dupRow2 : RawRow := { sampleRaw with text := some "world" }

/-- A cleaned record as fed to the sinks. -/
def wrow1 : Row :=
  ⟨"alice", some "loc", some "desc", some "2020-01-01", some 5, some 3,
   some 7, some true, some "2021-01-01", some "hello", ["ai", "#ML"], some "web", some false⟩

/-- A second cleaned record with a different natural key and the same source. -/
def wrow2 : Row := { wrow1 with user_name := "bob", text := some "yo" }

/-- A record whose `source` is the empty string. -/
def wrowEmptySource : Row := { wrow1 with source := some "" }

/-! ## Helper lemmas -/

theorem clean_tag_list_eq (tags : List String) :
    clean_tag_list tags = (tags.filter (fun t => !(pyStrip t == ""))).map clean_tag := by
  induction tags with
  | nil => rfl
  | cons t ts ih =>
      by_cases h : pyStrip t = ""
      · simp [clean_tag_list, h, List.filter_cons, ih]
      · simp [clean_tag_list, h, List.filter_cons, ih]

theorem parse_list_literal_eq (tags : List String) :
    load_tweets.parse_list_literal tags
      = (tags.filter (fun t => !(pyStrip t == ""))).map (fun t => pyLStripHash (pyStrip t)) := by
  induction tags with
  | nil => rfl
  | cons t ts ih =>
      by_cases h : pyStrip t = ""
      · simp [load_tweets.parse_list_literal, h, List.filter_cons, ih]
      · simp [load_tweets.parse_list_literal, h, List.filter_cons, ih]

theorem commit_count_append (a b : List PgEvent) :
    commit_count (a ++ b) = commit_count a + commit_count b := by
  simp [commit_count, List.countP_append]

theorem commit_count_upsert (s : PgState) (r : Row) :
    commit_count (upsert_user s r).2.2 = 1 := by
  unfold upsert_user
  cases s.users.find? (fun p => p.2.user_name == r.user_name) <;> rfl

theorem commit_count_source (s : PgState) (n : Option String) :
    commit_count (get_or_create_source s n).2.2 = 0 := by
  unfold get_or_create_source
  cases n with
  | none => rfl
  | some nm =>
      by_cases h : nm = ""
      · simp [h, commit_count]
      · simp only [h, if_neg, ite_false]
        cases s.sources.find? (fun p => p.2 == nm) <;> rfl

theorem commit_count_hashtag (s : PgState) (t : String) :
    commit_count (get_or_create_hashtag s t).2.2 = 0 := by
  unfold get_or_create_hashtag
  cases s.tags.find? (fun p => p.2 == t) <;> rfl

theorem commit_count_link (s : PgState) (t h : Nat) :
    commit_count (link_tweet_hashtag s t h).2 = 0 := rfl

theorem commit_count_tags (s : PgState) (tid : Nat) (l : List String) :
    commit_count (process_tags s tid l).2 = 0 := by
  induction l generalizing s with
  | nil => rfl
  | cons tag rest ih =>
      unfold process_tags
      by_cases h : clean_tag tag = ""
      · simp only [h, ite_true]
        exact ih s
      · simp only [h, ite_false, commit_count_append, commit_count_hashtag,
          commit_count_link, ih]

theorem coord_flush_sizes_spec {α : Type} (N : Nat) (hN : 0 < N) (l : List α) :
    ∀ total : Nat,
      coord_flush_sizes N (total % N) total l
        = List.replicate ((total % N + l.length) / N) N
          ++ (if (total % N + l.length) % N = 0 then []
              else [(total % N + l.length) % N]) := by
  induction l with
  | nil =>
      intro total
      have hlt : total % N < N := Nat.mod_lt _ hN
      have hdiv : total % N / N = 0 := Nat.div_eq_of_lt hlt
      have hmod : total % N % N = total % N := Nat.mod_eq_of_lt hlt
      by_cases h0 : total % N = 0
      · simp [coord_flush_sizes, h0, hdiv]
      · simp [coord_flush_sizes, h0, hdiv, hmod]
  | cons a rs ih =>
      intro total
      have hr : total % N < N := Nat.mod_lt _ hN
      have hdm := Nat.div_add_mod total N
      have hsucc : (total + 1) % N = (total % N + 1) % N := by
        conv_lhs => rw [show total + 1 = N * (total / N) + (total % N + 1) by omega]
        rw [Nat.mul_add_mod]
      by_cases hb : (total + 1) % N = 0
      · have h2 : (total % N + 1) % N = 0 := by rw [← hsucc]; exact hb
        have hNe : total % N + 1 = N := by
          rcases Nat.lt_or_ge (total % N + 1) N with hlt | hge
          · rw [Nat.mod_eq_of_lt hlt] at h2; omega
          · omega
        have ihx : coord_flush_sizes N 0 (total + 1) rs
            = List.replicate ((0 + rs.length) / N) N
              ++ (if (0 + rs.length) % N = 0 then [] else [(0 + rs.length) % N]) := by
          have h := ih (total + 1)
          rwa [hb] at h
        simp only [coord_flush_sizes, hb, beq_self_eq_true, if_true, ihx,
          Nat.zero_add, List.length_cons]
        rw [show total % N + (rs.length + 1) = rs.length + N by omega]
        rw [Nat.add_div_right _ hN, Nat.add_mod_right, hNe, List.replicate_succ]
        rfl
      · have h2 : (total % N + 1) % N ≠ 0 := by rw [← hsucc]; exact hb
        have hlt2 : total % N + 1 < N := by
          rcases Nat.lt_or_ge (total % N + 1) N with hlt | hge
          · exact hlt
          · exfalso
            have heq : total % N + 1 = N := by omega
            rw [heq, Nat.mod_self] at h2
            exact h2 rfl
        have hsucc2 : (total + 1) % N = total % N + 1 := by
          rw [hsucc, Nat.mod_eq_of_lt hlt2]
        have ihx : coord_flush_sizes N ((total + 1) % N) (total + 1) rs
            = List.replicate (((total + 1) % N + rs.length) / N) N
              ++ (if ((total + 1) % N + rs.length) % N = 0 then []
                  else [((total + 1) % N + rs.length) % N]) := ih (total + 1)
        have hguard : ((total + 1) % N == 0) = false := by
          simp [hb]
        simp only [coord_flush_sizes, hguard, Bool.false_eq_true, if_false,
          List.length_cons]
        rw [← hsucc2, ihx, hsucc2]
        rw [show total % N + 1 + rs.length = total % N + (rs.length + 1) by omega]

theorem commit_count_record (s : PgState) (r : Row) :
    commit_count (process_record s r).2 = 1 := by
  unfold process_record
  simp only [commit_count_append, commit_count_upsert, commit_count_source,
    commit_count_tags]
  rfl

theorem user_find_none_iff (s : PgState) (n : String) :
    (s.users.find? (fun p => p.2.user_name == n) = Option.none) ↔ n ∉ user_names s := by
  simp [List.find?_eq_none, user_names, List.mem_map]

theorem source_find_none_iff (s : PgState) (nm : String) :
    (s.sources.find? (fun p => p.2 == nm) = Option.none) ↔ nm ∉ source_names s := by
  simp only [List.find?_eq_none, source_names, List.mem_map, beq_iff_eq]
  constructor
  · intro h
    rintro ⟨⟨a, b⟩, hab, he⟩
    exact (h _ hab) he
  · intro h x hx he
    exact h ⟨x, hx, he⟩

theorem user_names_upsert (s : PgState) (r : Row) :
    user_names (upsert_user s r).1 = insertOnce (user_names s) r.user_name := by
  unfold upsert_user insertOnce
  cases hf : s.users.find? (fun p => p.2.user_name == r.user_name) with
  | none =>
      have hmem : r.user_name ∉ user_names s := (user_find_none_iff s r.user_name).mp hf
      have hmem' : r.user_name ∉ List.map (fun p => p.2.user_name) s.users := by
        simpa [user_names] using hmem
      simp [user_names, rowToUser, hmem']
  | some q =>
      have hq := List.find?_some hf
      have hmem : r.user_name ∈ user_names s :=
        List.mem_map.mpr ⟨q, List.mem_of_find?_eq_some hf, eq_of_beq hq⟩
      rw [if_pos hmem]
      simp only [user_names, List.map_map]
      apply List.map_congr_left
      intro q _
      simp only [Function.comp_apply]
      by_cases hcase : q.2.user_name = r.user_name
      · simp [hcase, rowToUser]
      · simp [hcase]

theorem upsert_user_rest (s : PgState) (r : Row) :
    (upsert_user s r).1.sources = s.sources ∧ (upsert_user s r).1.tweets = s.tweets := by
  unfold upsert_user
  cases s.users.find? (fun p => p.2.user_name == r.user_name) <;> exact ⟨rfl, rfl⟩

theorem source_names_goc (s : PgState) (n : Option String) :
    source_names (get_or_create_source s n).1 = insertOpt (source_names s) (py_or_none n) := by
  unfold get_or_create_source py_or_none insertOpt
  cases n with
  | none => rfl
  | some nm =>
      by_cases h : nm = ""
      · simp [h]
      · simp only [h, ite_false]
        unfold insertOnce
        cases hf : s.sources.find? (fun p => p.2 == nm) with
        | none =>
            have hmem : nm ∉ source_names s := (source_find_none_iff s nm).mp hf
            have hmem' : nm ∉ List.map (fun p => p.2) s.sources := by
              simpa [source_names] using hmem
            simp [source_names, hmem']
        | some q =>
            have hq := List.find?_some hf
            have hmem : nm ∈ source_names s :=
              List.mem_map.mpr ⟨q, List.mem_of_find?_eq_some hf, eq_of_beq hq⟩
            simp [hmem]

theorem goc_source_rest (s : PgState) (n : Option String) :
    (get_or_create_source s n).1.users = s.users
    ∧ (get_or_create_source s n).1.tweets = s.tweets := by
  unfold get_or_create_source
  cases n with
  | none => exact ⟨rfl, rfl⟩
  | some nm =>
      by_cases h : nm = ""
      · simp [h]
      · simp only [h, ite_false]
        cases s.sources.find? (fun p => p.2 == nm) <;> exact ⟨rfl, rfl⟩

theorem insert_tweet_rest (s : PgState) (uid : Nat) (r : Row) (sid : Option Nat) :
    (insert_tweet s uid r sid).1.users = s.users
    ∧ (insert_tweet s uid r sid).1.sources = s.sources
    ∧ (insert_tweet s uid r sid).1.tweets
        = s.tweets ++ [(s.next_tweet_id, ⟨uid, r.date, r.text, sid, r.is_retweet⟩)] :=
  ⟨rfl, rfl, rfl⟩

theorem goc_hashtag_rest (s : PgState) (t : String) :
    (get_or_create_hashtag s t).1.users = s.users
    ∧ (get_or_create_hashtag s t).1.sources = s.sources
    ∧ (get_or_create_hashtag s t).1.tweets = s.tweets := by
  unfold get_or_create_hashtag
  cases s.tags.find? (fun p => p.2 == t) <;> exact ⟨rfl, rfl, rfl⟩

theorem link_rest (s : PgState) (t h : Nat) :
    (link_tweet_hashtag s t h).1.users = s.users
    ∧ (link_tweet_hashtag s t h).1.sources = s.sources
    ∧ (link_tweet_hashtag s t h).1.tweets = s.tweets := by
  unfold link_tweet_hashtag
  by_cases hm : (t, h) ∈ s.links <;> simp [hm]

theorem process_tags_rest (s : PgState) (tid : Nat) (l : List String) :
    (process_tags s tid l).1.users = s.users
    ∧ (process_tags s tid l).1.sources = s.sources
    ∧ (process_tags s tid l).1.tweets = s.tweets := by
  induction l generalizing s with
  | nil => exact ⟨rfl, rfl, rfl⟩
  | cons tag rest ih =>
      simp only [process_tags]
      by_cases h : clean_tag tag = ""
      · simp only [h, ite_true]
        exact ih s
      · simp only [h, ite_false]
        refine ⟨?_, ?_, ?_⟩
        · rw [(ih _).1, (link_rest _ _ _).1, (goc_hashtag_rest _ _).1]
        · rw [(ih _).2.1, (link_rest _ _ _).2.1, (goc_hashtag_rest _ _).2.1]
        · rw [(ih _).2.2, (link_rest _ _ _).2.2, (goc_hashtag_rest _ _).2.2]

theorem process_record_user_names (s : PgState) (r : Row) :
    user_names (process_record s r).1 = insertOnce (user_names s) r.user_name := by
  simp only [process_record]
  unfold user_names
  rw [(process_tags_rest _ _ _).1, (insert_tweet_rest _ _ _ _).1, (goc_source_rest _ _).1]
  have h := user_names_upsert s r
  unfold user_names at h
  exact h

theorem process_record_source_names (s : PgState) (r : Row) :
    source_names (process_record s r).1 = insertOpt (source_names s) (py_or_none r.source) := by
  simp only [process_record]
  unfold source_names
  rw [(process_tags_rest _ _ _).2.1, (insert_tweet_rest _ _ _ _).2.1]
  have h := source_names_goc (upsert_user s r).1 r.source
  unfold source_names at h
  rw [h, (upsert_user_rest s r).1]

theorem process_record_tweets (s : PgState) (r : Row) :
    (process_record s r).1.tweets.length = s.tweets.length + 1 := by
  simp only [process_record]
  rw [(process_tags_rest _ _ _).2.2, (insert_tweet_rest _ _ _ _).2.2,
    List.length_append, (goc_source_rest _ _).2, (upsert_user_rest _ _).2]
  rfl

theorem run_relational_user_names (s : PgState) (rs : List Row) :
    user_names (run_relational s rs).1
      = insertKeys (user_names s) (fun r => some r.user_name) rs := by
  induction rs generalizing s with
  | nil => rfl
  | cons r rest ih =>
      simp only [run_relational, insertKeys, List.foldl_cons]
      rw [ih, process_record_user_names]
      rfl

theorem run_relational_source_names (s : PgState) (rs : List Row) :
    source_names (run_relational s rs).1
      = insertKeys (source_names s) (fun r => py_or_none r.source) rs := by
  induction rs generalizing s with
  | nil => rfl
  | cons r rest ih =>
      simp only [run_relational, insertKeys, List.foldl_cons]
      rw [ih, process_record_source_names]
      rfl

theorem run_relational_tweets (s : PgState) (rs : List Row) :
    (run_relational s rs).1.tweets.length = s.tweets.length + rs.length := by
  induction rs generalizing s with
  | nil => rfl
  | cons r rest ih =>
      simp only [run_relational, List.length_cons]
      rw [ih, process_record_tweets]
      omega

theorem mem_insertOnce (l : List String) (k a : String) :
    a ∈ insertOnce l k ↔ a ∈ l ∨ a = k := by
  unfold insertOnce
  by_cases h : k ∈ l
  · simp only [if_pos h]
    constructor
    · exact fun ha => Or.inl ha
    · rintro (ha | rfl)
      · exact ha
      · exact h
  · simp [if_neg h, List.mem_append]

theorem nodup_insertOnce (l : List String) (k : String) (hl : l.Nodup) :
    (insertOnce l k).Nodup := by
  unfold insertOnce
  by_cases h : k ∈ l
  · simpa [h]
  · simp [h, List.nodup_append, hl]

theorem mem_insertOpt (l : List String) (o : Option String) (a : String) :
    a ∈ insertOpt l o ↔ a ∈ l ∨ o = some a := by
  cases o with
  | none => simp [insertOpt]
  | some k =>
      simp only [insertOpt, mem_insertOnce, Option.some_inj]
      constructor
      · rintro (ha | rfl)
        · exact Or.inl ha
        · exact Or.inr rfl
      · rintro (ha | rfl)
        · exact Or.inl ha
        · exact Or.inr rfl

theorem nodup_insertOpt (l : List String) (o : Option String) (hl : l.Nodup) :
    (insertOpt l o).Nodup := by
  cases o with
  | none => exact hl
  | some k => exact nodup_insertOnce l k hl

theorem mem_insertKeys (l : List String) (f : Row → Option String) (rs : List Row) (a : String) :
    a ∈ insertKeys l f rs ↔ a ∈ l ∨ some a ∈ rs.map f := by
  induction rs generalizing l with
  | nil => simp [insertKeys]
  | cons r rest ih =>
      simp only [insertKeys, List.foldl_cons] at *
      rw [ih (insertOpt l (f r))]
      rw [mem_insertOpt]
      simp only [List.map_cons, List.mem_cons]
      constructor
      · rintro ((ha | hf) | hrest)
        · exact Or.inl ha
        · exact Or.inr (Or.inl hf.symm)
        · exact Or.inr (Or.inr hrest)
      · rintro (ha | (hf | hrest))
        · exact Or.inl (Or.inl ha)
        · exact Or.inl (Or.inr hf.symm)
        · exact Or.inr hrest

theorem nodup_insertKeys (l : List String) (f : Row → Option String) (rs : List Row)
    (hl : l.Nodup) : (insertKeys l f rs).Nodup := by
  induction rs generalizing l with
  | nil => exact hl
  | cons r rest ih =>
      simp only [insertKeys, List.foldl_cons] at *
      exact ih (insertOpt l (f r)) (nodup_insertOpt l (f r) hl)

theorem insertKeys_noop (l : List String) (f : Row → Option String) (rs : List Row)
    (h : ∀ r ∈ rs, ∀ k, f r = some k → k ∈ l) :
    insertKeys l f rs = l := by
  induction rs with
  | nil => rfl
  | cons r rest ih =>
      simp only [insertKeys, List.foldl_cons]
      have h1 : insertOpt l (f r) = l := by
        cases hf : f r with
        | none => rfl
        | some k => simp [insertOpt, insertOnce, h r (by simp) k hf]
      rw [h1]
      exact ih (fun r' hr' k hk => h r' (by simp [hr']) k hk)

theorem py_or_none_of_truthy (o : Option String) (h : truthy o = true) :
    py_or_none o = o := by
  cases o with
  | none => simp [truthy] at h
  | some s =>
      have hs : s ≠ "" := by
        simpa [truthy] using h
      simp [py_or_none, hs]

/-! ## Claim theorems -/

/-- C5 (corrected): the claim holds of `DataPrecleaner.__to_bool` — it
returns true exactly on non-null inputs whose stripped, lowercased string
form is in the truthy set, and false otherwise, including on null — but
`load_tweets._parse_bool` returns `None`, not `False`, on null input. -/
theorem C5_counterexample :
    (load_tweets.parse_bool PyVal.none == some false) = false := by decide

/-- C5 (amended): `DataPrecleaner.__to_bool` returns true exactly when the
input is non-null and its stripped, lowercased string form is one of
"true","1","yes","y","t", and false otherwise (in particular on null);
`load_tweets._parse_bool` agrees with it on every non-null input but
returns `None` (no value) on null input. -/
theorem C5_bool_parsers (v : PyVal) :
    DataPrecleaner.to_bool v
      = (!pd_isna v && truthyStrings.contains (pyLower (pyStrip (pyStr v))))
    ∧ load_tweets.parse_bool v
      = (if pd_isna v then Option.none else some (DataPrecleaner.to_bool v)) := by
  constructor
  · cases v <;> simp [DataPrecleaner.to_bool, pd_isna]
  · cases v with
    | bool b => cases b <;> decide
    | _ => simp [load_tweets.parse_bool, DataPrecleaner.to_bool, pd_isna]

/-- C6 (corrected): the cleanup comprehension of
`DataPrecleaner.__parse_hashtags` drops a tag only when it is empty or
whitespace-only *before* the `#`-removal; a tag consisting of `#`
characters alone is kept and produces the empty string in the output. -/
theorem C6_counterexample :
    "" ∈ DataPrecleaner.parse_hashtags_list ["#"] := by decide

/-- C6 (amended): on literal-list input, `DataPrecleaner.__parse_hashtags`
keeps, in order, exactly the tags whose stripped form is non-empty, each
mapped to strip + leading-`#` removal + lowercase (so a tag of only `#`
characters yields a kept empty string); the spec example evaluates to
`["ai", "ml"]`; `load_tweets._parse_list` does the same without
lowercasing, and passes already-list input through with no cleanup. -/
theorem C6_hashtag_cleanup :
    (∀ tags : List String,
      DataPrecleaner.parse_hashtags_list tags
        = (tags.filter (fun t => !(pyStrip t == ""))).map clean_tag)
    ∧ DataPrecleaner.parse_hashtags_list ["AI", "#ml", ""] = ["ai", "ml"]
    ∧ (∀ tags : List String,
      load_tweets.parse_list_literal tags
        = (tags.filter (fun t => !(pyStrip t == ""))).map (fun t => pyLStripHash (pyStrip t)))
    ∧ (∀ xs : List String, load_tweets.parse_list_of_list xs = xs) :=
  ⟨fun tags => clean_tag_list_eq tags, by decide,
   fun tags => parse_list_literal_eq tags, fun _ => rfl⟩

/-- C7 (corrected): the precleaner's numeric normalization does not clamp
negative values — a parseable negative input survives as a negative
integer. -/
theorem C7_counterexample :
    DataPrecleaner.numeric_step (RawNum.num (-5)) < 0 := by decide

/-- C7 (amended): the precleaner's numeric step maps a parseable number to
itself (truncated to integer by `astype(int)`, with no clamping) and
unparseable or absent input to 0; the clamping to `[0, ∞)` happens only in
the coordinator's cleaning pass, whose numeric step is always
non-negative, clamps present values with `max 0`, and defaults missing
values to 0. -/
theorem C7_numeric_parsers :
    (∀ n : Int, DataPrecleaner.numeric_step (RawNum.num n) = n)
    ∧ DataPrecleaner.numeric_step RawNum.null = 0
    ∧ (∀ s : String, DataPrecleaner.numeric_step (RawNum.bad s) = 0)
    ∧ (∀ v : Option Int, 0 ≤ clean_csv_numeric v)
    ∧ (∀ n : Int, clean_csv_numeric (some n) = max n 0)
    ∧ clean_csv_numeric Option.none = 0 := by
  refine ⟨fun n => rfl, rfl, fun s => rfl, fun v => ?_, fun n => rfl, rfl⟩
  cases v with
  | none => simp [clean_csv_numeric]
  | some n => simp [clean_csv_numeric]

/-- C1 (corrected): `clean_csv_data` never parses the `date` column, so a
record whose `date` is a present but unparseable string — here
`"not-a-date"`, which the tolerant timestamp parser rejects — survives the
cleaning pass and reaches both sinks. -/
theorem C1_counterexample :
    parse_timestamp "not-a-date" = Option.none
    ∧ (clean_csv_data [badDateRow]).map RawRow.date = [some "not-a-date"] := by
  exact ⟨by decide, by decide⟩

/-- C1 (amended): every record in the output of the coordinator's cleaning
pass `clean_csv_data` has a present (non-null) `date` cell and a present,
non-blank `text` cell; records with a null date or empty text are
excluded.  Parseability of the date is not checked, and exclusions are
only counted in aggregate together with duplicate removals. -/
theorem C1_cleaning_mandatory_fields (df : List RawRow) (r : RawRow)
    (h : r ∈ clean_csv_data df) :
    r.date.isSome = true
    ∧ r.text.isSome = true
    ∧ (pyStrip (r.text.getD "") == "") = false := by
  simp only [clean_csv_data] at h
  obtain ⟨a, ha, rfl⟩ := List.mem_map.mp h
  obtain ⟨b, hb, rfl⟩ := List.mem_map.mp ha
  obtain ⟨c, hc, rfl⟩ := List.mem_map.mp hb
  obtain ⟨x, hx, rfl⟩ := List.mem_map.mp hc
  obtain ⟨hx9, h10⟩ := List.mem_filter.mp hx
  obtain ⟨hx8, h9⟩ := List.mem_filter.mp hx9
  obtain ⟨hx7, h8⟩ := List.mem_filter.mp hx8
  refine ⟨h8, h9, ?_⟩
  simpa using h10

/-- Witness for C1 at a concrete input: a well-formed row survives the
cleaning pass, and the amended invariant holds of it. -/
theorem C1_witness :
    sampleRaw ∈ clean_csv_data [sampleRaw]
    ∧ (sampleRaw.date.isSome = true
       ∧ sampleRaw.text.isSome = true
       ∧ (pyStrip (sampleRaw.text.getD "") == "") = false) :=
  ⟨by decide, C1_cleaning_mandatory_fields [sampleRaw] sampleRaw (by decide)⟩

/-- C3 (code bug): `clean_csv_data` does not deduplicate or otherwise
enforce uniqueness of `user_name` within the batch — two distinct records
sharing a `user_name` both survive, the set of `user_name` values is
smaller than the batch, and the repository's own
`validate_data_quality` duplicate check flags the cleaner's output. -/
theorem C3_duplicate_user_names_survive :
    (clean_csv_data [sampleRaw, dupRow2]).length = 2
    ∧ ((clean_csv_data [sampleRaw, dupRow2]).map (fun r => r.user_name)).dedup.length = 1
    ∧ user_name_duplicated (clean_csv_data [sampleRaw, dupRow2]) = true := by
  exact ⟨by decide, by decide, by decide⟩

/-- C2 (code bug): the relational write sequence for every single record
itself issues exactly one `conn.commit()` — the commit inside
`PostgresManager.upsert_user` (src/db/postgres_manager.py line 122) — so
over a stream of records the relational connection commits once per
record, before the coordinator's flush-boundary commits, and the user
upsert is already durable before the tweet insert runs.  This contradicts
the claimed (and spec-stated) commit-only-at-flush-boundaries design. -/
theorem C2_relational_commit_per_record (s : PgState) (rs : List Row) :
    commit_count (run_relational s rs).2 = rs.length
    ∧ commit_count (process_record PgState.empty wrow1).2 = 1 := by
  refine ⟨?_, commit_count_record _ _⟩
  induction rs generalizing s with
  | nil => rfl
  | cons r rest ih =>
      unfold run_relational
      simp only [commit_count_append, commit_count_record, ih, List.length_cons]
      omega

/-- C4 (confirmed): running the relational sink twice over the same cleaned
batch (every record carrying a truthy source, as cleaned batches do)
leaves exactly one `users` row per distinct `user_name` and one `sources`
row per distinct source name — the key columns are duplicate-free, the
second run leaves them unchanged, and they contain exactly the batch's
keys — while each run appends one `tweets` row per record, so after two
runs the tweet table holds twice the batch size. -/
theorem C4_relational_idempotence (batch : List Row)
    (hsrc : ∀ r ∈ batch, truthy r.source = true) :
    (user_names (run_relational (run_relational PgState.empty batch).1 batch).1).Nodup
    ∧ user_names (run_relational (run_relational PgState.empty batch).1 batch).1
        = user_names (run_relational PgState.empty batch).1
    ∧ (∀ k, k ∈ user_names (run_relational PgState.empty batch).1
        ↔ k ∈ batch.map Row.user_name)
    ∧ (source_names (run_relational (run_relational PgState.empty batch).1 batch).1).Nodup
    ∧ source_names (run_relational (run_relational PgState.empty batch).1 batch).1
        = source_names (run_relational PgState.empty batch).1
    ∧ (∀ k, k ∈ source_names (run_relational PgState.empty batch).1
        ↔ some k ∈ batch.map Row.source)
    ∧ (run_relational PgState.empty batch).1.tweets.length = batch.length
    ∧ (run_relational (run_relational PgState.empty batch).1 batch).1.tweets.length
        = 2 * batch.length := by
  have hU1 : user_names (run_relational PgState.empty batch).1
      = insertKeys [] (fun r => some r.user_name) batch :=
    run_relational_user_names PgState.empty batch
  have memU : ∀ k, k ∈ user_names (run_relational PgState.empty batch).1
      ↔ k ∈ batch.map Row.user_name := by
    intro k
    rw [hU1, mem_insertKeys]
    simp [List.mem_map]
  have hU2 : user_names (run_relational (run_relational PgState.empty batch).1 batch).1
      = user_names (run_relational PgState.empty batch).1 := by
    rw [run_relational_user_names (run_relational PgState.empty batch).1 batch]
    apply insertKeys_noop
    intro r hr k hk
    have hk' : r.user_name = k := Option.some.inj hk
    exact (memU k).mpr (List.mem_map.mpr ⟨r, hr, hk'⟩)
  have nodupU1 : (user_names (run_relational PgState.empty batch).1).Nodup := by
    rw [hU1]
    exact nodup_insertKeys [] _ batch List.nodup_nil
  have hpy : ∀ r ∈ batch, py_or_none r.source = r.source := fun r hr =>
    py_or_none_of_truthy r.source (hsrc r hr)
  have hfS : batch.map (fun r => py_or_none r.source) = batch.map Row.source :=
    List.map_congr_left hpy
  have hS1 : source_names (run_relational PgState.empty batch).1
      = insertKeys [] (fun r => py_or_none r.source) batch :=
    run_relational_source_names PgState.empty batch
  have memS : ∀ k, k ∈ source_names (run_relational PgState.empty batch).1
      ↔ some k ∈ batch.map Row.source := by
    intro k
    rw [hS1, mem_insertKeys, hfS]
    simp
  have hS2 : source_names (run_relational (run_relational PgState.empty batch).1 batch).1
      = source_names (run_relational PgState.empty batch).1 := by
    rw [run_relational_source_names (run_relational PgState.empty batch).1 batch]
    apply insertKeys_noop
    intro r hr k hk
    have hk' : r.source = some k := by rw [← hpy r hr]; exact hk
    exact (memS k).mpr (List.mem_map.mpr ⟨r, hr, hk'⟩)
  have nodupS1 : (source_names (run_relational PgState.empty batch).1).Nodup := by
    rw [hS1]
    exact nodup_insertKeys [] _ batch List.nodup_nil
  have hT1 : (run_relational PgState.empty batch).1.tweets.length = batch.length := by
    have h := run_relational_tweets PgState.empty batch
    simpa [PgState.empty] using h
  have hT2 : (run_relational (run_relational PgState.empty batch).1 batch).1.tweets.length
      = 2 * batch.length := by
    have h := run_relational_tweets (run_relational PgState.empty batch).1 batch
    rw [hT1] at h
    omega
  exact ⟨hU2 ▸ nodupU1, hU2, memU, hS2 ▸ nodupS1, hS2, memS, hT1, hT2⟩

/-- Witness for C4 at a concrete input: a two-record cleaned batch with
truthy sources; one run inserts two tweets, a second run four, and the
second run leaves the users key column unchanged. -/
theorem C4_witness :
    (∀ r ∈ [wrow1, wrow2], truthy r.source = true)
    ∧ (run_relational PgState.empty [wrow1, wrow2]).1.tweets.length = 2
    ∧ (run_relational (run_relational PgState.empty [wrow1, wrow2]).1 [wrow1, wrow2]).1.tweets.length = 4
    ∧ user_names (run_relational (run_relational PgState.empty [wrow1, wrow2]).1 [wrow1, wrow2]).1
        = user_names (run_relational PgState.empty [wrow1, wrow2]).1 := by
  have h := C4_relational_idempotence [wrow1, wrow2] (by decide)
  exact ⟨by decide, h.2.2.2.2.2.2.1, by simpa using h.2.2.2.2.2.2.2, h.2.1⟩

/-- C8 (confirmed): inserting the same (tweet id, hashtag id) link twice is
idempotent — the second insert is a silent no-op (the function is total;
`ON CONFLICT DO NOTHING` makes the duplicate insert succeed without
error) — and from a state not containing the link, the link table ends up
with exactly one copy of it. -/
theorem C8_link_idempotent (s : PgState) (t h : Nat) :
    (link_tweet_hashtag (link_tweet_hashtag s t h).1 t h).1 = (link_tweet_hashtag s t h).1
    ∧ ((t, h) ∉ s.links →
        ((link_tweet_hashtag (link_tweet_hashtag s t h).1 t h).1).links.count (t, h) = 1) := by
  constructor
  · by_cases hm : (t, h) ∈ s.links
    · simp [link_tweet_hashtag, hm]
    · simp [link_tweet_hashtag, hm]
  · intro hm
    simp [link_tweet_hashtag, hm, List.count_append, List.count_eq_zero.mpr hm]

/-- Witness for C8 at a concrete input: the empty database does not
contain the link (1, 2), and inserting it twice leaves exactly one row. -/
theorem C8_witness :
    (1, 2) ∉ PgState.empty.links
    ∧ ((link_tweet_hashtag (link_tweet_hashtag PgState.empty 1 2).1 1 2).1).links.count (1, 2) = 1 :=
  ⟨by decide, (C8_link_idempotent PgState.empty 1 2).2 (by decide)⟩

/-- C9 (confirmed): the coordinator loop of `main.run` flushes the
accumulated operations after every N processed records (each such flush
covering exactly N records) and once more at end-of-stream iff a non-empty
remainder is pending; in particular, with batch size 2 and 5 input
records, exactly 3 flushes occur, covering 2, 2 and 1 records. -/
theorem C9_flush_boundaries :
    (∀ (α : Type) (N : Nat), 0 < N → ∀ records : List α,
      flush_sizes N records
        = List.replicate (records.length / N) N
          ++ (if records.length % N = 0 then [] else [records.length % N]))
    ∧ flush_sizes 2 [(0 : Nat), 1, 2, 3, 4] = [2, 2, 1]
    ∧ (flush_sizes 2 [(0 : Nat), 1, 2, 3, 4]).length = 3 := by
  refine ⟨?_, by decide, by decide⟩
  intro α N hN records
  have h := coord_flush_sizes_spec N hN records 0
  simpa [flush_sizes] using h

/-- Witness for C9 at a concrete input: batch size 2 is positive and the
flush sizes for a 5-record stream follow the proved characterization. -/
theorem C9_witness :
    0 < 2
    ∧ flush_sizes 2 [(0 : Nat), 1, 2, 3, 4]
        = List.replicate (5 / 2) 2 ++ (if 5 % 2 = 0 then [] else [5 % 2]) :=
  ⟨by decide, by
    have h := C9_flush_boundaries.1 Nat 2 (by decide) [0, 1, 2, 3, 4]
    exact h⟩

/-- C10 (confirmed): in every document built for the document store, the
top-level `source` field is never the empty string — a falsy source
(empty string or `None`) is stored as null, a non-empty string unchanged —
and `MongoManager._build_document` agrees with `main.build_mongo_doc`. -/
theorem C10_mongo_source (row : Row) :
    ((build_mongo_doc row).source == some "") = false
    ∧ (build_mongo_doc row).source
        = (match row.source with
           | Option.none => Option.none
           | some s => if s = "" then Option.none else some s)
    ∧ (mongo_build_document row).source = (build_mongo_doc row).source := by
  refine ⟨?_, ?_, rfl⟩
  · show (py_or_none row.source == some "") = false
    cases h : row.source with
    | none => rfl
    | some s =>
        by_cases hs : s = "" <;> simp [py_or_none, hs]
  · rfl

end Bench
